import Mathlib

/-!
Shallow embedding of the Wallet-Service-API ledger and credential code
(src/app/routes/wallet_routes.py, src/app/routes/keys_routes.py,
src/app/auth.py, src/app/models.py, src/app/utils.py).

Monetary values held by the Python runtime (the `Float` columns
`Wallet.balance` and `Transaction.amount`, and the webhook's
`amount / 100` computation) are modelled as exact rationals; integer
request amounts (the pydantic `int` fields) as `Int`; datetimes as `Int`
timestamps.  Database rows are lists; SQLAlchemy `.first()` lookups are
first-match searches, and in-place mutation of a found row is a
first-match update.
-/

namespace WalletService

/-- From src/app/models.py: `TransactionType`. -/
inductive TransactionType
  | deposit
  | transfer
deriving DecidableEq, Repr

/-- From src/app/models.py: `TransactionStatus`. -/
inductive TransactionStatus
  | pending
  | success
  | failed
deriving DecidableEq, Repr

/-- From src/app/models.py: `Wallet` (id, user_id, wallet_number, balance). -/
structure Wallet where
  id : String
  userId : String
  walletNumber : String
  balance : ℚ
deriving DecidableEq, Repr

/-- From src/app/models.py: `Transaction`. -/
structure Transaction where
  id : String
  reference : String
  type : TransactionType
  amount : ℚ
  status : TransactionStatus
  senderWalletId : Option String
  recipientWalletId : Option String
deriving DecidableEq, Repr

/-- The relevant slice of the persistent store: wallet and transaction rows. -/
structure DB where
  wallets : List Wallet
  transactions : List Transaction
deriving DecidableEq, Repr

/-- `db.query(Transaction).filter(Transaction.reference == ref).first()`. -/
def findTxnBy : List Transaction → String → Option Transaction
  | [], _ => none
  | t :: ts, ref => if t.reference = ref then some t else findTxnBy ts ref

/-- `db.query(Wallet).filter(Wallet.user_id == uid).first()`. -/
def findWalletByUser : List Wallet → String → Option Wallet
  | [], _ => none
  | w :: ws, uid => if w.userId = uid then some w else findWalletByUser ws uid

/-- `db.query(Wallet).filter(Wallet.wallet_number == n).first()`. -/
def findWalletByNumber : List Wallet → String → Option Wallet
  | [], _ => none
  | w :: ws, n => if w.walletNumber = n then some w else findWalletByNumber ws n

/-- `db.query(Wallet).filter(Wallet.id == wid).first()`. -/
def findWalletById : List Wallet → String → Option Wallet
  | [], _ => none
  | w :: ws, wid => if w.id = wid then some w else findWalletById ws wid

/-- `wallet.balance += amt` on the first wallet whose id matches the
(optional) id; when the id is absent or unmatched nothing changes
(the SQLAlchemy filter `Wallet.id == None` matches no row). -/
def creditFirst : List Wallet → Option String → ℚ → List Wallet
  | [], _, _ => []
  | w :: ws, wid, amt =>
      if some w.id = wid then { w with balance := w.balance + amt } :: ws
      else w :: creditFirst ws wid amt

/-- `transaction.status = st` on the first transaction with the given
reference (the row returned by the `.first()` lookup). -/
def setStatusFirst : List Transaction → String → TransactionStatus → List Transaction
  | [], _, _ => []
  | t :: ts, ref, st =>
      if t.reference = ref then { t with status := st } :: ts
      else t :: setStatusFirst ts ref st

/-- Balance of the wallet a `Wallet.id` lookup returns. -/
def balanceOf (db : DB) (wid : String) : Option ℚ :=
  (findWalletById db.wallets wid).map (fun w => w.balance)

/-- Status of the transaction a reference lookup returns. -/
def statusByRef (db : DB) (ref : String) : Option TransactionStatus :=
  (findTxnBy db.transactions ref).map (fun t => t.status)

/-- A parsed Paystack webhook body: `event`, `data.reference`,
`data.amount`, `data.status`.  A missing `data.status` is modelled as a
string different from "success", which the code treats identically. -/
structure WebhookPayload where
  event : String
  reference : Option String
  amount : ℚ
  payStatus : String
deriving DecidableEq, Repr

/-- From src/app/routes/wallet_routes.py, `paystack_webhook` (lines
160-198), after the signature gate: on `charge.success`, compute
`amount = data.amount / 100`, return unchanged when the reference is
falsy, unknown, or the transaction is already `success`; otherwise on a
"success" gateway status credit the recipient wallet and mark the
transaction `success`, else mark it `failed`. -/
def processWebhook (db : DB) (p : WebhookPayload) : DB :=
  if p.event = "charge.success" then
    let credit : ℚ := p.amount / 100
    match p.reference with
    | none => db
    | some ref =>
        if ref = "" then db
        else
          match findTxnBy db.transactions ref with
          | none => db
          | some txn =>
              if txn.status = TransactionStatus.success then db
              else if p.payStatus = "success" then
                { wallets := creditFirst db.wallets txn.recipientWalletId credit,
                  transactions := setStatusFirst db.transactions ref TransactionStatus.success }
              else
                { db with transactions := setStatusFirst db.transactions ref TransactionStatus.failed }
  else db

/-- `n` deliveries of the same webhook payload, in order. -/
def iterWebhook (db : DB) (p : WebhookPayload) : ℕ → DB
  | 0 => db
  | n + 1 => processWebhook (iterWebhook db p n) p

/-- From src/app/schemas.py: `TransferRequest` (amount is a pydantic
`int` with `gt=0`; the bound is carried as a hypothesis where needed). -/
structure TransferRequest where
  walletNumber : String
  amount : ℤ
deriving DecidableEq, Repr

/-- The distinct rejection responses of the `transfer` route:
404 wallet not found, 400 insufficient balance, 404 recipient not
found, 400 cannot transfer to your own wallet. -/
inductive TransferError
  | walletNotFound
  | insufficientBalance
  | recipientNotFound
  | selfTransfer
deriving DecidableEq, Repr

/-- From src/app/routes/wallet_routes.py, `transfer` (lines 354-413):
look up sender by user, reject when balance < amount, resolve recipient
by wallet number, reject self-transfer, then debit sender, credit
recipient and commit the appended `success` transaction; a rejection
commits nothing. -/
def transfer (db : DB) (userId : String) (req : TransferRequest)
    (ref txnId : String) : Except TransferError DB :=
  match findWalletByUser db.wallets userId with
  | none => .error .walletNotFound
  | some sender =>
      if sender.balance < (req.amount : ℚ) then .error .insufficientBalance
      else
        match findWalletByNumber db.wallets req.walletNumber with
        | none => .error .recipientNotFound
        | some recipient =>
            if sender.id = recipient.id then .error .selfTransfer
            else
              .ok { wallets :=
                      creditFirst
                        (creditFirst db.wallets (some sender.id) (-(req.amount : ℚ)))
                        (some recipient.id) (req.amount : ℚ),
                    transactions := db.transactions ++
                      [⟨txnId, ref, TransactionType.transfer, (req.amount : ℚ),
                        TransactionStatus.success, some sender.id, some recipient.id⟩] }

/-- Rejection responses of the `deposit` route, plus the gateway-failure
conversion of the `except` branch. -/
inductive DepositError
  | walletNotFound
  | duplicateReference
  | gatewayFailure
deriving DecidableEq, Repr

/-- From src/app/routes/wallet_routes.py, `deposit` (lines 34-107): look
up the wallet, check the fresh reference for a collision, commit a
`pending` deposit transaction, then call the gateway; on gateway failure
the committed transaction is re-committed as `failed`.  The committed
store is returned together with the error, if any, since the pending
write commits before the gateway call. -/
def initiateDeposit (db : DB) (userId : String) (amount : ℤ)
    (ref txnId : String) (gatewayOk : Bool) : DB × Option DepositError :=
  match findWalletByUser db.wallets userId with
  | none => (db, some .walletNotFound)
  | some w =>
      match findTxnBy db.transactions ref with
      | some _ => (db, some .duplicateReference)
      | none =>
          let txns₁ := db.transactions ++
            [⟨txnId, ref, TransactionType.deposit, (amount : ℚ),
              TransactionStatus.pending, none, some w.id⟩]
          if gatewayOk then (⟨db.wallets, txns₁⟩, none)
          else (⟨db.wallets, setStatusFirst txns₁ ref TransactionStatus.failed⟩,
                some .gatewayFailure)

/-- From src/app/models.py `APIKey`, as used by the routes after the
`aa85513865c9` migration (key_hash + key_prefix columns); the prefix
field is named `keyPfx` here. -/
structure APIKeyRec where
  id : String
  userId : String
  name : String
  keyHash : String
  keyPfx : String
  permissions : List String
  expiresAt : ℤ
  isActive : Bool
deriving DecidableEq, Repr

/-- From src/app/routes/keys_routes.py line 59. -/
def validPermissions : List String := ["deposit", "transfer", "read"]

/-- The filter `APIKey.user_id == uid, APIKey.is_active == True,
APIKey.expires_at > now` used by the cap checks. -/
def isActiveKeyFor (uid : String) (now : ℤ) (k : APIKeyRec) : Bool :=
  decide (k.userId = uid) && k.isActive && decide (now < k.expiresAt)

/-- `.count()` of the active-key filter (keys_routes.py lines 48-52 and
149-153). -/
def activeKeysCount (keys : List APIKeyRec) (uid : String) (now : ℤ) : ℕ :=
  (keys.filter (isActiveKeyFor uid now)).length

/-- From src/app/utils.py `parse_expiry` (1H, 1D, 1M, 1Y as offsets from
`now`, in seconds; invalid strings raise, modelled as `none`). -/
def parse_expiry (e : String) (now : ℤ) : Option ℤ :=
  if e = "1H" then some (now + 3600)
  else if e = "1D" then some (now + 86400)
  else if e = "1M" then some (now + 30 * 86400)
  else if e = "1Y" then some (now + 365 * 86400)
  else none

/-- From src/app/schemas.py: `CreateAPIKeyRequest`. -/
structure CreateKeyRequest where
  name : String
  permissions : List String
  expiry : String
deriving DecidableEq, Repr

/-- The distinct error responses of the key routes. -/
inductive KeyError
  | conflictCap
  | invalidPermission (p : String)
  | invalidExpiry
  | notFound
  | notExpiredYet
deriving DecidableEq, Repr

/-- The `for perm in request.permissions` loop of keys_routes.py lines
60-65: the first permission outside the valid set, if any. -/
def firstInvalidPermission : List String → Option String
  | [] => none
  | p :: rest =>
      if p ∈ validPermissions then firstInvalidPermission rest else some p

/-- From src/app/routes/keys_routes.py, `create_api_key` (lines 27-95):
reject when 5 or more keys are active, reject an invalid permission or
expiry, otherwise commit a new active key.  The generated secret, hash
and prefix are inputs (they come from `secrets` and bcrypt). -/
def create_api_key (keys : List APIKeyRec) (uid : String)
    (req : CreateKeyRequest) (now : ℤ) (newId newHash newPfx : String) :
    Except KeyError (List APIKeyRec) :=
  if 5 ≤ activeKeysCount keys uid now then .error .conflictCap
  else
    match firstInvalidPermission req.permissions with
    | some p => .error (.invalidPermission p)
    | none =>
        match parse_expiry req.expiry now with
        | none => .error .invalidExpiry
        | some expAt =>
            .ok (keys ++ [⟨newId, uid, req.name, newHash, newPfx,
                           req.permissions, expAt, true⟩])

/-- `db.query(APIKey).filter(APIKey.id == kid, APIKey.user_id == uid).first()`. -/
def findKeyByIdUser : List APIKeyRec → String → String → Option APIKeyRec
  | [], _, _ => none
  | k :: ks, kid, uid =>
      if k.id = kid ∧ k.userId = uid then some k else findKeyByIdUser ks kid uid

/-- From src/app/routes/keys_routes.py, `rollover_api_key` (lines
111-182), comparison exactly as written at line 143: the request is
rejected with "API key is not expired yet" when `expires_at < now`,
then the active-key cap is checked, then a new key with the old key's
name and permissions is committed. -/
def rollover_api_key (keys : List APIKeyRec) (uid expiredKeyId expiry : String)
    (now : ℤ) (newId newHash newPfx : String) :
    Except KeyError (List APIKeyRec) :=
  match findKeyByIdUser keys expiredKeyId uid with
  | none => .error .notFound
  | some oldKey =>
      if oldKey.expiresAt < now then .error .notExpiredYet
      else if 5 ≤ activeKeysCount keys uid now then .error .conflictCap
      else
        match parse_expiry expiry now with
        | none => .error .invalidExpiry
        | some expAt =>
            .ok (keys ++ [⟨newId, uid, oldKey.name, newHash, newPfx,
                           oldKey.permissions, expAt, true⟩])

/-- `api_key.is_active = False` on the first key the revoke lookup
returns. -/
def deactivateFirst : List APIKeyRec → String → String → List APIKeyRec
  | [], _, _ => []
  | k :: ks, kid, uid =>
      if k.id = kid ∧ k.userId = uid then { k with isActive := false } :: ks
      else k :: deactivateFirst ks kid uid

/-- From src/app/routes/keys_routes.py, `revoke_api_key` (lines
196-234): 404 when no owned key matches, otherwise set `is_active`
to false and commit. -/
def revoke_api_key (keys : List APIKeyRec) (uid kid : String) :
    Except KeyError (List APIKeyRec) :=
  match findKeyByIdUser keys kid uid with
  | none => .error .notFound
  | some _ => .ok (deactivateFirst keys kid uid)

/-- From src/app/models.py: `User` (the fields authentication uses). -/
structure UserRec where
  id : String
  email : String
deriving DecidableEq, Repr

/-- An HTTPException as surfaced to the caller: status code and detail. -/
structure HTTPError where
  statusCode : ℕ
  detail : String
deriving DecidableEq, Repr

/-- `db.query(User).filter(User.id == uid).first()`. -/
def findUserById : List UserRec → String → Option UserRec
  | [], _ => none
  | u :: us, uid => if u.id = uid then some u else findUserById us uid

/-- The JWT branch of src/app/auth.py `get_current_user` (lines
118-148).  `verifyTok` abstracts `verify_token` (jose JWT decode):
`none` is a failed decode, `some sub` is a decoded payload whose
optional "sub" claim is `sub`. -/
def jwtAuth (verifyTok : String → Option (Option String))
    (users : List UserRec) (credentials : Option String) :
    Except HTTPError (UserRec × Option (List String)) :=
  match credentials with
  | none =>
      .error ⟨401, "Authentication required. Provide either Bearer token or x-api-key header."⟩
  | some tok =>
      match verifyTok tok with
      | none => .error ⟨401, "Invalid or expired JWT token"⟩
      | some sub =>
          match sub with
          | none => .error ⟨401, "Invalid token payload"⟩
          | some uid =>
              match findUserById users uid with
              | none => .error ⟨401, "User not found"⟩
              | some u => .ok (u, none)

/-- From src/app/auth.py, `get_current_user` (lines 62-149).  A present
non-empty `x-api-key` header takes the API-key branch (Python truthiness
of the header string): filter candidate keys by prefix and active flag,
bcrypt-verify each (`verifyKey` abstracts `verify_api_key`), then check
expiry and resolve the owning user; otherwise fall back to the JWT
branch.  `pfxOf` abstracts `APIKey.get_key_prefix`. -/
def get_current_user (verifyKey : String → String → Bool)
    (verifyTok : String → Option (Option String)) (pfxOf : String → String)
    (users : List UserRec) (keys : List APIKeyRec) (now : ℤ)
    (xApiKey credentials : Option String) :
    Except HTTPError (UserRec × Option (List String)) :=
  match xApiKey with
  | some apiKeyStr =>
      if apiKeyStr = "" then jwtAuth verifyTok users credentials
      else
        let potential := keys.filter
          (fun k => decide (k.keyPfx = pfxOf apiKeyStr) && k.isActive)
        match potential.find? (fun k => verifyKey apiKeyStr k.keyHash) with
        | none => .error ⟨401, "Invalid API key"⟩
        | some apiKey =>
            if apiKey.expiresAt < now then .error ⟨401, "API key has expired"⟩
            else
              match findUserById users apiKey.userId with
              | none => .error ⟨401, "User not found"⟩
              | some u => .ok (u, some apiKey.permissions)
  | none => jwtAuth verifyTok users credentials

/-- Outcome of the permission gate: pass, or a 403 whose detail names
the missing permission and the permissions actually held. -/
inductive PermResult
  | ok (u : UserRec)
  | denied (missing : String) (held : List String)
deriving DecidableEq, Repr

/-- From src/app/auth.py, `require_permission` / `permission_checker`
(lines 152-184): a `None` permissions list (JWT auth) always passes; a
scoped key passes exactly when the required permission is held. -/
def require_permission_check (permission : String) (user : UserRec)
    (permissions : Option (List String)) : PermResult :=
  match permissions with
  | none => .ok user
  | some perms =>
      if permission ∈ perms then .ok user else .denied permission perms

/-- The per-transaction status changes one webhook delivery can make:
unchanged, `pending` to a terminal status, or the `failed`-to-`success`
re-settlement the code permits. -/
def StatusStep (a b : TransactionStatus) : Prop :=
  a = b ∨ (a = TransactionStatus.pending ∧
            (b = TransactionStatus.success ∨ b = TransactionStatus.failed)) ∨
  (a = TransactionStatus.failed ∧ b = TransactionStatus.success)

/-- Outcome of settling one reference by repeated delivery of one
payload: after any positive number of deliveries the store is the
one-delivery store, the recipient's balance grew exactly once by the
code's settlement credit `amount / 100`, and the transaction is
`success`. -/
def SettledOnce (db : DB) (p : WebhookPayload) (ref wid : String) (b : ℚ) (n : ℕ) : Prop :=
  iterWebhook db p n = processWebhook db p ∧
  balanceOf (iterWebhook db p n) wid = some (b + p.amount / 100) ∧
  statusByRef (iterWebhook db p n) ref = some TransactionStatus.success

/-- The only committed outcomes a transfer can reach: a rejection with
the store untouched, or the exact double-entry success outcome. -/
def TransferAtomicOutcome (db : DB) (uid : String) (req : TransferRequest)
    (ref txnId : String) : Prop :=
  (∃ e, transfer db uid req ref txnId = Except.error e) ∨
  (∃ s r db', findWalletByUser db.wallets uid = some s ∧
     findWalletByNumber db.wallets req.walletNumber = some r ∧
     transfer db uid req ref txnId = Except.ok db' ∧
     balanceOf db' s.id = some (s.balance - (req.amount : ℚ)) ∧
     balanceOf db' r.id = some (r.balance + (req.amount : ℚ)) ∧
     (∀ wid, wid ≠ s.id → wid ≠ r.id → balanceOf db' wid = balanceOf db wid) ∧
     db'.transactions = db.transactions ++
       [⟨txnId, ref, TransactionType.transfer, (req.amount : ℚ),
         TransactionStatus.success, some s.id, some r.id⟩])

/-- A store holding a transaction already settled as `failed`. -/
def dbC1cex : DB :=
  ⟨[⟨"w1", "u1", "111", 0⟩],
   [⟨"t1", "DEP_A", TransactionType.deposit, 100, TransactionStatus.failed, none, some "w1"⟩]⟩

/-- A later success delivery for the failed reference. -/
def pC1cex : WebhookPayload := ⟨"charge.success", some "DEP_A", 100, "success"⟩

/-- A transaction already settled as `success`. -/
def tC1wit : Transaction :=
  ⟨"t2", "DEP_W", TransactionType.deposit, 100, TransactionStatus.success, none, some "w1"⟩

/-- A store holding the settled transaction. -/
def dbC1wit : DB := ⟨[⟨"w1", "u1", "111", 7⟩], [tC1wit]⟩

/-- A duplicate success delivery for the settled reference. -/
def pC1wit : WebhookPayload := ⟨"charge.success", some "DEP_W", 100, "success"⟩

/-- A pending deposit transaction awaiting settlement. -/
def tC2wit : Transaction :=
  ⟨"t1", "DEP_2", TransactionType.deposit, 500, TransactionStatus.pending, none, some "w1"⟩

/-- A store holding the pending deposit. -/
def dbC2wit : DB := ⟨[⟨"w1", "u1", "111", 0⟩], [tC2wit]⟩

/-- The success settlement payload for the pending deposit. -/
def pC2wit : WebhookPayload := ⟨"charge.success", some "DEP_2", 500, "success"⟩

/-- Two wallets able to transact. -/
def dbC3wit : DB := ⟨[⟨"w1", "u1", "111", 10000⟩, ⟨"w2", "u2", "222", 500⟩], []⟩

/-- A transfer of 3000 to the second wallet. -/
def reqC3wit : TransferRequest := ⟨"222", 3000⟩

/-- A zero-balance wallet with a pending deposit. -/
def dbC4cex : DB :=
  ⟨[⟨"w1", "u1", "111", 0⟩],
   [⟨"t1", "DEP_N", TransactionType.deposit, 100, TransactionStatus.pending, none, some "w1"⟩]⟩

/-- A signed success settlement carrying a negative amount. -/
def pC4cex : WebhookPayload := ⟨"charge.success", some "DEP_N", -500, "success"⟩

/-- A store with one zero-balance wallet. -/
def dbC4wit : DB := ⟨[⟨"w1", "u1", "111", 0⟩], []⟩

/-- A key that already expired at time 10. -/
def keysC5a : List APIKeyRec := [⟨"k1", "u1", "svc", "h1", "p1", ["read"], 10, true⟩]

/-- A key that is still valid until time 1000. -/
def keysC5b : List APIKeyRec := [⟨"k2", "u1", "svc", "h2", "p2", ["read"], 1000, true⟩]

/-- A zero-balance wallet with a pending deposit of 150 kobo. -/
def dbC6cex : DB :=
  ⟨[⟨"w1", "u1", "111", 0⟩],
   [⟨"t1", "DEP_B", TransactionType.deposit, 150, TransactionStatus.pending, none, some "w1"⟩]⟩

/-- The signed settlement for the 150-kobo deposit. -/
def pC6cex : WebhookPayload := ⟨"charge.success", some "DEP_B", 150, "success"⟩

/-- A wallet whose balance 5 cannot cover a requested 10. -/
def dbC7cex : DB := ⟨[⟨"w1", "u1", "111", 5⟩], []⟩

/-- A wallet with ample balance for the self-transfer probe. -/
def wC7wit : Wallet := ⟨"w1", "u1", "111", 50⟩

/-- A store holding only that wallet. -/
def dbC7wit : DB := ⟨[wC7wit], []⟩

/-- A transfer of 10 addressed to the sender's own wallet number. -/
def reqC7wit : TransferRequest := ⟨"111", 10⟩

/-- One of five simultaneously active keys of user u1. -/
def kC8wit : APIKeyRec := ⟨"k1", "u1", "svc", "h1", "p1", ["read"], 100, true⟩

/-- Five simultaneously active keys of user u1 at time 0. -/
def keysC8wit : List APIKeyRec :=
  [kC8wit,
   ⟨"k2", "u1", "svc", "h2", "p2", ["read"], 100, true⟩,
   ⟨"k3", "u1", "svc", "h3", "p3", ["read"], 100, true⟩,
   ⟨"k4", "u1", "svc", "h4", "p4", ["read"], 100, true⟩,
   ⟨"k5", "u1", "svc", "h5", "p5", ["read"], 100, true⟩]

/-- A valid create-key request. -/
def reqC8wit : CreateKeyRequest := ⟨"svc", ["read"], "1H"⟩

/-- A user for the permission-gate instance. -/
def uC9wit : UserRec := ⟨"u9", "e"⟩

/-- The single user of the authentication fixtures. -/
def usersC10 : List UserRec := [⟨"u1", "a"⟩]

/-- One active but expired key owned by that user. -/
def keysC10 : List APIKeyRec := [⟨"k1", "u1", "n", "h1", "pfx", ["read"], 10, true⟩]

/-- Concrete bcrypt verification: only the secret SECRET1 matches hash h1. -/
def vKeyC10 : String → String → Bool := fun s h => s == "SECRET1" && h == "h1"

/-- Concrete JWT verification: every token fails to decode. -/
def vTokC10 : String → Option (Option String) := fun _ => none

/-- Concrete prefix extraction: every presented key has prefix pfx. -/
def pfxOfC10 : String → String := fun _ => "pfx"


lemma findTxnBy_setStatusFirst (ts : List Transaction) (ref : String) (st : TransactionStatus) :
    findTxnBy (setStatusFirst ts ref st) ref
      = (findTxnBy ts ref).map (fun t => { t with status := st }) := by
  induction ts with
  | nil => simp [findTxnBy, setStatusFirst]
  | cons t ts ih =>
      by_cases h : t.reference = ref
      · simp [findTxnBy, setStatusFirst, h]
      · simp [findTxnBy, setStatusFirst, h, ih]

lemma balance_creditFirst (ws : List Wallet) (wid : String) (amt : ℚ) :
    (findWalletById (creditFirst ws (some wid) amt) wid).map (fun w => w.balance)
      = (findWalletById ws wid).map (fun w => w.balance + amt) := by
  induction ws with
  | nil => simp [findWalletById, creditFirst]
  | cons w ws ih =>
      by_cases h : w.id = wid
      · simp [findWalletById, creditFirst, h]
      · simp [findWalletById, creditFirst, h, ih]

lemma findWalletById_creditFirst_ne (ws : List Wallet) (wid wid' : String) (amt : ℚ)
    (h : wid' ≠ wid) :
    findWalletById (creditFirst ws (some wid) amt) wid' = findWalletById ws wid' := by
  induction ws with
  | nil => rfl
  | cons w ws ih =>
      by_cases hw : w.id = wid
      · have h1 : creditFirst (w :: ws) (some wid) amt
            = { w with balance := w.balance + amt } :: ws := by simp [creditFirst, hw]
        have hne : w.id ≠ wid' := by rw [hw]; exact fun e => h e.symm
        rw [h1]
        simp [findWalletById, hne]
      · have h1 : creditFirst (w :: ws) (some wid) amt
            = w :: creditFirst ws (some wid) amt := by simp [creditFirst, hw]
        rw [h1]
        simp [findWalletById, ih]

lemma forall2_self {R : Transaction → Transaction → Prop} (hrefl : ∀ t, R t t) :
    ∀ ts : List Transaction, List.Forall₂ R ts ts := by
  intro ts
  induction ts with
  | nil => exact List.Forall₂.nil
  | cons t ts ih => exact List.Forall₂.cons (hrefl t) ih

lemma forall2_setStatusFirst {R : Transaction → Transaction → Prop}
    (hrefl : ∀ t, R t t) (ts : List Transaction) (ref : String)
    (st : TransactionStatus)
    (h1 : ∀ t, findTxnBy ts ref = some t → R t { t with status := st }) :
    List.Forall₂ R ts (setStatusFirst ts ref st) := by
  induction ts with
  | nil => exact List.Forall₂.nil
  | cons t ts ih =>
      by_cases h : t.reference = ref
      · simp only [setStatusFirst, if_pos h]
        exact List.Forall₂.cons (h1 t (by simp [findTxnBy, h])) (forall2_self hrefl ts)
      · simp only [setStatusFirst, if_neg h]
        exact List.Forall₂.cons (hrefl t)
          (ih (fun t' ht' => h1 t' (by simp [findTxnBy, h, ht'])))



/-- C1 (amended): each webhook delivery moves every transaction status
only along pending to success, pending to failed, failed to success, or
leaves it unchanged; a transaction already in status `success` is never
re-processed — the delivery leaves the store unchanged.  `failed` is not
terminal in the code: the counterexample shows a failed transaction
re-settled to success with a credit. -/
theorem webhook_status_step (db : DB) (p : WebhookPayload) :
    (∀ ref t, p.reference = some ref → findTxnBy db.transactions ref = some t →
        t.status = TransactionStatus.success → processWebhook db p = db) ∧
    List.Forall₂ (fun t t' => StatusStep t.status t'.status)
      db.transactions (processWebhook db p).transactions := by
  have hrefl : ∀ t : Transaction, StatusStep t.status t.status := fun t => Or.inl rfl
  constructor
  · intro ref t hr ht hst
    by_cases he : p.event = "charge.success"
    · by_cases hrr : ref = ""
      · simp [processWebhook, he, hr, hrr]
      · simp [processWebhook, he, hr, hrr, ht, hst]
    · simp [processWebhook, he]
  · by_cases he : p.event = "charge.success"
    case neg =>
      simp only [processWebhook, if_neg he]
      exact forall2_self hrefl _
    case pos =>
      cases hr : p.reference with
      | none =>
          simp only [processWebhook, if_pos he, hr]
          exact forall2_self hrefl _
      | some ref =>
          by_cases hrr : ref = ""
          · simp only [processWebhook, if_pos he, hr, if_pos hrr]
            exact forall2_self hrefl _
          · cases ht : findTxnBy db.transactions ref with
            | none =>
                simp only [processWebhook, if_pos he, hr, if_neg hrr, ht]
                exact forall2_self hrefl _
            | some txn =>
                by_cases hst : txn.status = TransactionStatus.success
                · simp only [processWebhook, if_pos he, hr, if_neg hrr, ht, if_pos hst]
                  exact forall2_self hrefl _
                · by_cases hps : p.payStatus = "success"
                  · simp only [processWebhook, if_pos he, hr, if_neg hrr, ht, if_neg hst,
                      if_pos hps]
                    apply forall2_setStatusFirst hrefl
                    intro t' ht'
                    rw [ht] at ht'
                    cases ht'
                    cases hcs : txn.status with
                    | pending => exact Or.inr (Or.inl ⟨rfl, Or.inl rfl⟩)
                    | failed => exact Or.inr (Or.inr ⟨rfl, rfl⟩)
                    | success => exact absurd hcs hst
                  · simp only [processWebhook, if_pos he, hr, if_neg hrr, ht, if_neg hst,
                      if_neg hps]
                    apply forall2_setStatusFirst hrefl
                    intro t' ht'
                    rw [ht] at ht'
                    cases ht'
                    cases hcs : txn.status with
                    | pending => exact Or.inr (Or.inl ⟨rfl, Or.inr rfl⟩)
                    | failed => exact Or.inl rfl
                    | success => exact absurd hcs hst



/-- C2: webhook settlement is idempotent.  Delivering the same valid
success payload for one pending reference any number n of times, n at
least 1, yields exactly the one-delivery store: the recipient balance
grows exactly once by the settlement credit and the transaction is
`success`; every delivery after the first is acknowledged without
reapplying credit. -/
theorem webhook_settlement_idempotent (db : DB) (p : WebhookPayload)
    (ref wid : String) (t : Transaction) (b : ℚ)
    (he : p.event = "charge.success") (hs : p.payStatus = "success")
    (hr : p.reference = some ref) (hne : ref ≠ "")
    (ht : findTxnBy db.transactions ref = some t)
    (hp : t.status = TransactionStatus.pending)
    (hw : t.recipientWalletId = some wid)
    (hb : balanceOf db wid = some b)
    (n : ℕ) (hn : 1 ≤ n) :
    SettledOnce db p ref wid b n := by
  have hst : ¬ t.status = TransactionStatus.success := by simp [hp]
  have h1 : processWebhook db p =
      ⟨creditFirst db.wallets t.recipientWalletId (p.amount / 100),
       setStatusFirst db.transactions ref TransactionStatus.success⟩ := by
    simp only [processWebhook, if_pos he, hr, if_neg hne, ht, if_neg hst, if_pos hs]
  have hfind1 : findTxnBy (setStatusFirst db.transactions ref TransactionStatus.success) ref
      = some { t with status := TransactionStatus.success } := by
    rw [findTxnBy_setStatusFirst, ht, Option.map_some']
  have h2 : processWebhook (processWebhook db p) p = processWebhook db p := by
    rw [h1]
    simp [processWebhook, he, hr, hne, hfind1]
  have hiter : ∀ m, iterWebhook db p (m + 1) = processWebhook db p := by
    intro m
    induction m with
    | zero => simp [iterWebhook]
    | succ k ih => rw [iterWebhook, ih, h2]
  obtain ⟨m, rfl⟩ : ∃ m, n = m + 1 := ⟨n - 1, by omega⟩
  refine ⟨hiter m, ?_, ?_⟩
  · rw [hiter m, h1]
    obtain ⟨w₀, hw₀, hbw⟩ := Option.map_eq_some'.mp hb
    show (findWalletById (creditFirst db.wallets t.recipientWalletId (p.amount / 100)) wid).map
        (fun w => w.balance) = some (b + p.amount / 100)
    rw [hw, balance_creditFirst, hw₀, Option.map_some', hbw]
  · rw [hiter m, h1]
    show (findTxnBy (setStatusFirst db.transactions ref TransactionStatus.success) ref).map
        (fun t => t.status) = some TransactionStatus.success
    rw [hfind1, Option.map_some']



lemma mem_of_findWalletByUser {ws : List Wallet} {uid : String} {w : Wallet}
    (h : findWalletByUser ws uid = some w) : w ∈ ws := by
  induction ws with
  | nil => simp [findWalletByUser] at h
  | cons x xs ih =>
      by_cases hx : x.userId = uid
      · simp only [findWalletByUser, if_pos hx, Option.some.injEq] at h
        exact h ▸ List.mem_cons_self x xs
      · simp only [findWalletByUser, if_neg hx] at h
        exact List.mem_cons_of_mem x (ih h)

lemma mem_of_findWalletByNumber {ws : List Wallet} {n : String} {w : Wallet}
    (h : findWalletByNumber ws n = some w) : w ∈ ws := by
  induction ws with
  | nil => simp [findWalletByNumber] at h
  | cons x xs ih =>
      by_cases hx : x.walletNumber = n
      · simp only [findWalletByNumber, if_pos hx, Option.some.injEq] at h
        exact h ▸ List.mem_cons_self x xs
      · simp only [findWalletByNumber, if_neg hx] at h
        exact List.mem_cons_of_mem x (ih h)

lemma findWalletById_of_mem_nodup {ws : List Wallet} {w : Wallet}
    (hids : (ws.map (fun x => x.id)).Nodup) (hw : w ∈ ws) :
    findWalletById ws w.id = some w := by
  induction ws with
  | nil => simp at hw
  | cons x xs ih =>
      rw [List.map_cons, List.nodup_cons] at hids
      rcases List.mem_cons.mp hw with h | h
      · subst h
        simp [findWalletById]
      · have hne : x.id ≠ w.id := by
          intro he
          exact hids.1 (he ▸ List.mem_map_of_mem (fun y => y.id) h)
        simp only [findWalletById, if_neg hne]
        exact ih hids.2 h

/-- C3: transfer is atomic.  Every transfer request either is rejected
with the committed store untouched, or commits exactly the success
outcome: sender debited by the amount, recipient credited by the amount,
all other balances unchanged, and one appended `success` transaction
record.  No other combination of balances and status is reachable. -/
theorem transfer_atomic (db : DB) (uid : String) (req : TransferRequest)
    (ref txnId : String) (hids : (db.wallets.map (fun w => w.id)).Nodup) :
    TransferAtomicOutcome db uid req ref txnId := by
  cases hfs : findWalletByUser db.wallets uid with
  | none => exact Or.inl ⟨.walletNotFound, by simp [transfer, hfs]⟩
  | some s =>
      by_cases hlt : s.balance < (req.amount : ℚ)
      · exact Or.inl ⟨.insufficientBalance, by simp [transfer, hfs, hlt]⟩
      · cases hfr : findWalletByNumber db.wallets req.walletNumber with
        | none => exact Or.inl ⟨.recipientNotFound, by simp [transfer, hfs, hlt, hfr]⟩
        | some r =>
            by_cases hsr : s.id = r.id
            · exact Or.inl ⟨.selfTransfer, by simp [transfer, hfs, hlt, hfr, hsr]⟩
            · refine Or.inr ⟨s, r,
                ⟨creditFirst (creditFirst db.wallets (some s.id) (-(req.amount : ℚ)))
                   (some r.id) (req.amount : ℚ),
                 db.transactions ++
                   [⟨txnId, ref, TransactionType.transfer, (req.amount : ℚ),
                     TransactionStatus.success, some s.id, some r.id⟩]⟩,
                hfs, hfr, by simp [transfer, hfs, hlt, hfr, hsr], ?_, ?_, ?_, rfl⟩
              · show (findWalletById
                    (creditFirst (creditFirst db.wallets (some s.id) (-(req.amount : ℚ)))
                      (some r.id) (req.amount : ℚ)) s.id).map (fun w => w.balance)
                  = some (s.balance - (req.amount : ℚ))
                rw [findWalletById_creditFirst_ne _ _ _ _ hsr, balance_creditFirst,
                  findWalletById_of_mem_nodup hids (mem_of_findWalletByUser hfs),
                  Option.map_some']
                ring_nf
              · show (findWalletById
                    (creditFirst (creditFirst db.wallets (some s.id) (-(req.amount : ℚ)))
                      (some r.id) (req.amount : ℚ)) r.id).map (fun w => w.balance)
                  = some (r.balance + (req.amount : ℚ))
                rw [balance_creditFirst,
                  findWalletById_creditFirst_ne _ _ _ _ (fun e => hsr e.symm),
                  findWalletById_of_mem_nodup hids (mem_of_findWalletByNumber hfr),
                  Option.map_some']
              · intro wid hws hwr
                show (findWalletById
                    (creditFirst (creditFirst db.wallets (some s.id) (-(req.amount : ℚ)))
                      (some r.id) (req.amount : ℚ)) wid).map (fun w => w.balance)
                  = balanceOf db wid
                rw [findWalletById_creditFirst_ne _ _ _ _ hwr,
                  findWalletById_creditFirst_ne _ _ _ _ hws]
                rfl



lemma mem_creditFirst {ws : List Wallet} {wid : Option String} {amt : ℚ} {w' : Wallet}
    (h : w' ∈ creditFirst ws wid amt) :
    w' ∈ ws ∨ ∃ w, w ∈ ws ∧ some w.id = wid ∧ w' = { w with balance := w.balance + amt } := by
  induction ws with
  | nil => simp [creditFirst] at h
  | cons x xs ih =>
      by_cases hx : some x.id = wid
      · rw [creditFirst, if_pos hx] at h
        rcases List.mem_cons.mp h with h | h
        · exact Or.inr ⟨x, List.mem_cons_self x xs, hx, h⟩
        · exact Or.inl (List.mem_cons_of_mem x h)
      · rw [creditFirst, if_neg hx] at h
        rcases List.mem_cons.mp h with h | h
        · exact Or.inl (h ▸ List.mem_cons_self x xs)
        · rcases ih h with h | ⟨w, hw, hid, he⟩
          · exact Or.inl (List.mem_cons_of_mem x h)
          · exact Or.inr ⟨w, List.mem_cons_of_mem x hw, hid, he⟩

lemma wallet_eq_of_id {ws : List Wallet}
    (hids : (ws.map (fun x => x.id)).Nodup) {w s : Wallet}
    (hw : w ∈ ws) (hs : s ∈ ws) (hid : w.id = s.id) : w = s := by
  have h1 := findWalletById_of_mem_nodup hids hw
  have h2 := findWalletById_of_mem_nodup hids hs
  rw [hid, h2] at h1
  exact Option.some.inj h1.symm

lemma transfer_ok_characterization {db : DB} {uid : String} {req : TransferRequest}
    {ref txnId : String} {db' : DB}
    (h : transfer db uid req ref txnId = Except.ok db') :
    ∃ s r, findWalletByUser db.wallets uid = some s ∧
      findWalletByNumber db.wallets req.walletNumber = some r ∧
      ¬ s.balance < (req.amount : ℚ) ∧ s.id ≠ r.id ∧
      db' = ⟨creditFirst (creditFirst db.wallets (some s.id) (-(req.amount : ℚ)))
               (some r.id) (req.amount : ℚ),
             db.transactions ++
               [⟨txnId, ref, TransactionType.transfer, (req.amount : ℚ),
                 TransactionStatus.success, some s.id, some r.id⟩]⟩ := by
  cases hfs : findWalletByUser db.wallets uid with
  | none => simp [transfer, hfs] at h
  | some s =>
      by_cases hlt : s.balance < (req.amount : ℚ)
      · simp [transfer, hfs, hlt] at h
      · cases hfr : findWalletByNumber db.wallets req.walletNumber with
        | none => simp [transfer, hfs, hlt, hfr] at h
        | some r =>
            by_cases hsr : s.id = r.id
            · simp [transfer, hfs, hlt, hfr, hsr] at h
            · refine ⟨s, r, rfl, rfl, hlt, hsr, ?_⟩
              simp only [transfer, hfs, hlt, hfr, hsr, if_neg, if_false] at h
              exact (Except.ok.inj h).symm

/-- C4 (amended): from a store with non-negative balances, deposit
initiation never touches a balance; a committed transfer preserves
non-negativity whenever the request amount is positive, as the pydantic
schema guarantees; and a webhook settlement preserves non-negativity
whenever the signed payload amount is non-negative — the code does not
check this, and the counterexample shows a negative signed amount
driving a balance negative. -/
theorem balance_nonneg_preserved (db : DB)
    (hpos : ∀ w ∈ db.wallets, 0 ≤ w.balance) :
    (∀ p : WebhookPayload, 0 ≤ p.amount →
       ∀ w' ∈ (processWebhook db p).wallets, 0 ≤ w'.balance) ∧
    (∀ uid req ref txnId db', (db.wallets.map (fun w => w.id)).Nodup →
       0 < req.amount → transfer db uid req ref txnId = Except.ok db' →
       ∀ w' ∈ db'.wallets, 0 ≤ w'.balance) ∧
    (∀ uid amt ref txnId g,
       ((initiateDeposit db uid amt ref txnId g).1).wallets = db.wallets) := by
  refine ⟨?_, ?_, ?_⟩
  · intro p hamt w' hw'
    have hcases : (processWebhook db p).wallets = db.wallets ∨
        ∃ rid, (processWebhook db p).wallets = creditFirst db.wallets rid (p.amount / 100) := by
      by_cases he : p.event = "charge.success"
      · cases hr : p.reference with
        | none => exact Or.inl (by simp [processWebhook, he, hr])
        | some ref =>
            by_cases hrr : ref = ""
            · exact Or.inl (by simp [processWebhook, he, hr, hrr])
            · cases ht : findTxnBy db.transactions ref with
              | none => exact Or.inl (by simp [processWebhook, he, hr, hrr, ht])
              | some txn =>
                  by_cases hst : txn.status = TransactionStatus.success
                  · exact Or.inl (by simp [processWebhook, he, hr, hrr, ht, hst])
                  · by_cases hps : p.payStatus = "success"
                    · exact Or.inr ⟨txn.recipientWalletId,
                        by simp [processWebhook, he, hr, hrr, ht, hst, hps]⟩
                    · exact Or.inl (by simp [processWebhook, he, hr, hrr, ht, hst, hps])
      · exact Or.inl (by simp [processWebhook, he])
    rcases hcases with hcase | ⟨rid, hcase⟩
    · exact hpos w' (hcase ▸ hw')
    · rcases mem_creditFirst (hcase ▸ hw') with h | ⟨w, hwmem, _, rfl⟩
      · exact hpos w' h
      · exact add_nonneg (hpos w hwmem) (div_nonneg hamt (by norm_num))
  · intro uid req ref txnId db' hids hreq htr w' hw'
    obtain ⟨s, r, hfs, hfr, hlt, hsr, rfl⟩ := transfer_ok_characterization htr
    have hamt : (0 : ℚ) ≤ (req.amount : ℚ) := by exact_mod_cast le_of_lt hreq
    have hs_mem := mem_of_findWalletByUser hfs
    have step1 : ∀ w₁ ∈ creditFirst db.wallets (some s.id) (-(req.amount : ℚ)),
        0 ≤ w₁.balance := by
      intro w₁ h₁
      rcases mem_creditFirst h₁ with h | ⟨w, hwmem, hid, rfl⟩
      · exact hpos w₁ h
      · have : w = s := wallet_eq_of_id hids hwmem hs_mem (Option.some.inj hid)
        subst this
        have := not_lt.mp hlt
        simp only []
        linarith
    rcases mem_creditFirst hw' with h | ⟨w, hwmem, _, rfl⟩
    · exact step1 w' h
    · exact add_nonneg (step1 w hwmem) hamt
  · intro uid amt ref txnId g
    cases hfs : findWalletByUser db.wallets uid with
    | none => simp [initiateDeposit, hfs]
    | some w =>
        cases ht : findTxnBy db.transactions ref with
        | none =>
            by_cases hg : g = true
            · simp [initiateDeposit, hfs, ht, hg]
            · simp [initiateDeposit, hfs, ht, Bool.eq_false_iff.mpr hg]
        | some t => simp [initiateDeposit, hfs, ht]



/-- C7 (amended): every transfer whose recipient wallet number resolves
to the sender's own wallet is rejected and commits nothing; it is
rejected as a self-transfer exactly when the sender balance covers the
amount, and as insufficient balance otherwise, because the balance check
runs before the self-transfer check. -/
theorem self_transfer_rejected (db : DB) (uid : String) (req : TransferRequest)
    (ref txnId : String) (s r : Wallet)
    (hfs : findWalletByUser db.wallets uid = some s)
    (hfr : findWalletByNumber db.wallets req.walletNumber = some r)
    (heq : s.id = r.id) :
    (∃ e, transfer db uid req ref txnId = Except.error e) ∧
    ((req.amount : ℚ) ≤ s.balance →
       transfer db uid req ref txnId = Except.error TransferError.selfTransfer) ∧
    (s.balance < (req.amount : ℚ) →
       transfer db uid req ref txnId = Except.error TransferError.insufficientBalance) := by
  by_cases hlt : s.balance < (req.amount : ℚ)
  · exact ⟨⟨TransferError.insufficientBalance, by simp [transfer, hfs, hlt]⟩,
      fun hle => absurd hlt (not_lt.mpr hle),
      fun _ => by simp [transfer, hfs, hlt]⟩
  · exact ⟨⟨TransferError.selfTransfer, by simp [transfer, hfs, hlt, hfr, heq]⟩,
      fun _ => by simp [transfer, hfs, hlt, hfr, heq],
      fun h => absurd h hlt⟩

lemma findKeyByIdUser_of_mem_nodup {keys : List APIKeyRec} {k : APIKeyRec}
    (hids : (keys.map (fun x => x.id)).Nodup) (hk : k ∈ keys) :
    findKeyByIdUser keys k.id k.userId = some k := by
  induction keys with
  | nil => simp at hk
  | cons x xs ih =>
      rw [List.map_cons, List.nodup_cons] at hids
      rcases List.mem_cons.mp hk with h | h
      · subst h
        simp [findKeyByIdUser]
      · have hne : ¬(x.id = k.id ∧ x.userId = k.userId) := by
          rintro ⟨he, -⟩
          exact hids.1 (he ▸ List.mem_map_of_mem (fun y => y.id) h)
        simp only [findKeyByIdUser, if_neg hne]
        exact ih hids.2 h

lemma isActiveKeyFor_deactivated (uid : String) (now : ℤ) (k : APIKeyRec) :
    isActiveKeyFor uid now { k with isActive := false } = false := by
  simp [isActiveKeyFor]

lemma activeKeysCount_deactivateFirst {keys : List APIKeyRec} {uid : String}
    {now : ℤ} {k : APIKeyRec}
    (hids : (keys.map (fun x => x.id)).Nodup) (hk : k ∈ keys) (hku : k.userId = uid)
    (hact : isActiveKeyFor uid now k = true) :
    activeKeysCount (deactivateFirst keys k.id uid) uid now + 1
      = activeKeysCount keys uid now := by
  induction keys with
  | nil => simp at hk
  | cons x xs ih =>
      rw [List.map_cons, List.nodup_cons] at hids
      by_cases hcond : x.id = k.id ∧ x.userId = uid
      · have hxk : x = k := by
          rcases List.mem_cons.mp hk with h | h
          · exact h.symm
          · exact absurd (hcond.1 ▸ List.mem_map_of_mem (fun y => y.id) h) hids.1
        rw [deactivateFirst, if_pos hcond]
        unfold activeKeysCount
        rw [List.filter_cons, List.filter_cons, isActiveKeyFor_deactivated,
          hxk, hact]
        simp
      · have hxk : k ∈ xs := by
          rcases List.mem_cons.mp hk with h | h
          · exact absurd ⟨h ▸ rfl, h ▸ hku⟩ hcond
          · exact h
        rw [deactivateFirst, if_neg hcond]
        unfold activeKeysCount
        rw [List.filter_cons, List.filter_cons]
        by_cases hx : isActiveKeyFor uid now x
        · rw [hx]
          simpa using ih hids.2 hxk
        · rw [Bool.eq_false_iff.mpr hx]
          simpa using ih hids.2 hxk

lemma firstInvalidPermission_eq_none {ps : List String}
    (h : ∀ p ∈ ps, p ∈ validPermissions) : firstInvalidPermission ps = none := by
  induction ps with
  | nil => rfl
  | cons p rest ih =>
      rw [firstInvalidPermission, if_pos (h p (List.mem_cons_self p rest))]
      exact ih (fun q hq => h q (List.mem_cons_of_mem p hq))

/-- C8: the five-active-key cap.  For a user holding five
simultaneously active keys (active flag set, not expired), creating a
sixth key fails with the cap conflict and commits nothing, and after
revoking one of the five a subsequent valid creation succeeds. -/
theorem key_cap_enforced (keys : List APIKeyRec) (uid : String)
    (req : CreateKeyRequest) (now : ℤ) (newId newHash newPfx : String)
    (k : APIKeyRec)
    (hids : (keys.map (fun x => x.id)).Nodup)
    (hcount : activeKeysCount keys uid now = 5)
    (hk : k ∈ keys) (hku : k.userId = uid)
    (hact : isActiveKeyFor uid now k = true)
    (hperm : ∀ p ∈ req.permissions, p ∈ validPermissions)
    (hexp : (parse_expiry req.expiry now).isSome) :
    create_api_key keys uid req now newId newHash newPfx
      = Except.error KeyError.conflictCap ∧
    ∃ keys', revoke_api_key keys uid k.id = Except.ok keys' ∧
      ∃ keys'', create_api_key keys' uid req now newId newHash newPfx
        = Except.ok keys'' := by
  constructor
  · rw [create_api_key, if_pos (by rw [hcount])]
  · have hfind : findKeyByIdUser keys k.id uid = some k := by
      rw [← hku]
      exact findKeyByIdUser_of_mem_nodup hids hk
    refine ⟨deactivateFirst keys k.id uid, by rw [revoke_api_key, hfind], ?_⟩
    have hc4 : activeKeysCount (deactivateFirst keys k.id uid) uid now = 4 := by
      have := activeKeysCount_deactivateFirst hids hk hku hact
      omega
    obtain ⟨expAt, hexp'⟩ := Option.isSome_iff_exists.mp hexp
    refine ⟨deactivateFirst keys k.id uid ++
      [⟨newId, uid, req.name, newHash, newPfx, req.permissions, expAt, true⟩], ?_⟩
    rw [create_api_key, if_neg (by rw [hc4]; omega),
      firstInvalidPermission_eq_none hperm, hexp']

/-- C9: permission gating is exact.  A full-trust (JWT) identity always
passes; a scoped key passes exactly when the required permission is in
its granted set; a key holding only read is denied a transfer with the
structured 403 naming the missing permission and the held set. -/
theorem permission_gate_exact (p : String) (u : UserRec) (perms : List String) :
    require_permission_check p u none = PermResult.ok u ∧
    (require_permission_check p u (some perms) = PermResult.ok u ↔ p ∈ perms) ∧
    require_permission_check "transfer" u (some ["read"])
      = PermResult.denied "transfer" ["read"] := by
  refine ⟨rfl, ?_, by simp [require_permission_check]⟩
  by_cases hp : p ∈ perms
  · simp [require_permission_check, hp]
  · simp [require_permission_check, hp]



lemma jwtAuth_error_401 {verifyTok : String → Option (Option String)}
    {users : List UserRec} {credentials : Option String} {e : HTTPError}
    (h : jwtAuth verifyTok users credentials = Except.error e) :
    e.statusCode = 401 := by
  cases credentials with
  | none =>
      simp only [jwtAuth] at h
      injection h with h1
      subst h1
      rfl
  | some tok =>
      cases hv : verifyTok tok with
      | none =>
          simp only [jwtAuth, hv] at h
          injection h with h1
          subst h1
          rfl
      | some sub =>
          cases sub with
          | none =>
              simp only [jwtAuth, hv] at h
              injection h with h1
              subst h1
              rfl
          | some uid =>
              cases hu : findUserById users uid with
              | none =>
                  simp only [jwtAuth, hv, hu] at h
                  injection h with h1
                  subst h1
                  rfl
              | some u =>
                  simp only [jwtAuth, hv, hu] at h
                  exact absurd h (by simp)

/-- C10 (amended): every authentication failure of the credential
resolver carries the same HTTP status 401, whatever the reason; the
counterexample shows the detail strings still distinguish the
reasons. -/
theorem auth_failure_always_401 (verifyKey : String → String → Bool)
    (verifyTok : String → Option (Option String)) (pfxOf : String → String)
    (users : List UserRec) (keys : List APIKeyRec) (now : ℤ)
    (xApiKey credentials : Option String) (e : HTTPError)
    (h : get_current_user verifyKey verifyTok pfxOf users keys now xApiKey credentials
          = Except.error e) :
    e.statusCode = 401 := by
  cases xApiKey with
  | none =>
      simp only [get_current_user] at h
      exact jwtAuth_error_401 h
  | some apiKeyStr =>
      by_cases hse : apiKeyStr = ""
      · simp only [get_current_user, if_pos hse] at h
        exact jwtAuth_error_401 h
      · simp only [get_current_user, if_neg hse] at h
        cases hfk : (keys.filter
            (fun k => decide (k.keyPfx = pfxOf apiKeyStr) && k.isActive)).find?
            (fun k => verifyKey apiKeyStr k.keyHash) with
        | none =>
            rw [hfk] at h
            injection h with h1
            subst h1
            rfl
        | some apiKey =>
            rw [hfk] at h
            dsimp only at h
            by_cases hex : apiKey.expiresAt < now
            · rw [if_pos hex] at h
              injection h with h1
              subst h1
              rfl
            · rw [if_neg hex] at h
              cases hu : findUserById users apiKey.userId with
              | none =>
                  rw [hu] at h
                  injection h with h1
                  subst h1
                  rfl
              | some u =>
                  rw [hu] at h
                  exact absurd h (by simp)


/-- C1 counterexample: the failed transaction DEP_A is re-processed by a
later success delivery — its status moves failed to success and the
recipient wallet is credited, refuting the claim that failed is
terminal. -/
theorem webhook_failed_reprocessed_cex :
    statusByRef dbC1cex "DEP_A" = some TransactionStatus.failed ∧
    statusByRef (processWebhook dbC1cex pC1cex) "DEP_A" = some TransactionStatus.success ∧
    balanceOf dbC1cex "w1" = some 0 ∧
    balanceOf (processWebhook dbC1cex pC1cex) "w1" = some 1 := by
  refine ⟨rfl, by decide, rfl, ?_⟩
  norm_num [processWebhook, balanceOf, findTxnBy, creditFirst, setStatusFirst,
    findWalletById, dbC1cex, pC1cex]

/-- C1 witness: a duplicate delivery on an already successful
transaction leaves the store unchanged, and the step relation holds. -/
theorem webhook_status_step_witness :
    processWebhook dbC1wit pC1wit = dbC1wit ∧
    List.Forall₂ (fun t t' => StatusStep t.status t'.status)
      dbC1wit.transactions (processWebhook dbC1wit pC1wit).transactions :=
  ⟨(webhook_status_step dbC1wit pC1wit).1 "DEP_W" tC1wit rfl rfl rfl,
   (webhook_status_step dbC1wit pC1wit).2⟩

/-- C2 witness: three deliveries of the same success settlement credit
the wallet exactly once. -/
theorem webhook_settlement_idempotent_witness :
    SettledOnce dbC2wit pC2wit "DEP_2" "w1" 0 3 :=
  webhook_settlement_idempotent dbC2wit pC2wit "DEP_2" "w1" tC2wit 0
    rfl rfl rfl (by decide) rfl rfl rfl rfl 3 (by norm_num)

/-- C3 witness: a concrete transfer of 3000 between two wallets reaches
only an atomic outcome. -/
theorem transfer_atomic_witness :
    TransferAtomicOutcome dbC3wit "u1" reqC3wit "TRF_1" "t9" :=
  transfer_atomic dbC3wit "u1" reqC3wit "TRF_1" "t9" (by decide)

/-- C4 counterexample: a validly signed success settlement with a
negative payload amount drives the recipient balance below zero. -/
theorem webhook_negative_amount_cex :
    balanceOf (processWebhook dbC4cex pC4cex) "w1" = some (-5) ∧ (-5 : ℚ) < 0 := by
  refine ⟨?_, by norm_num⟩
  norm_num [processWebhook, balanceOf, findTxnBy, creditFirst, setStatusFirst,
    findWalletById, dbC4cex, pC4cex]

/-- C4 witness: deposit initiation on the concrete store leaves the
wallets untouched. -/
theorem balance_nonneg_preserved_witness :
    ((initiateDeposit dbC4wit "u1" 250 "DEP_9" "t9" true).1).wallets = dbC4wit.wallets :=
  (balance_nonneg_preserved dbC4wit (by simp [dbC4wit])).2.2 "u1" 250 "DEP_9" "t9" true

/-- C5: the rollover expiry comparison is inverted.  The key k1 expired
at time 10, yet at time 100 its rollover is rejected with the
key-not-expired conflict; the key k2 is valid until time 1000, yet at
time 100 its rollover succeeds and creates a new key. -/
theorem rollover_expiry_check_inverted :
    rollover_api_key keysC5a "u1" "k1" "1H" 100 "k9" "h9" "p9"
      = Except.error KeyError.notExpiredYet ∧
    (10 : ℤ) < 100 ∧
    rollover_api_key keysC5b "u1" "k2" "1H" 100 "k9" "h9" "p9"
      = Except.ok (keysC5b ++ [⟨"k9", "u1", "svc", "h9", "p9", ["read"], 3700, true⟩]) ∧
    (100 : ℤ) < 1000 :=
  ⟨rfl, by norm_num, rfl, by norm_num⟩

/-- C6: the webhook credit computation is not integer arithmetic.  The
settlement of a signed payload amount 150 credits 150 / 100 = 3 / 2,
whose denominator is 2 — a non-integer monetary value produced by the
division the code performs on the Float-typed balance. -/
theorem webhook_credit_fractional :
    balanceOf (processWebhook dbC6cex pC6cex) "w1" = some ((3 : ℚ) / 2) ∧
    ((3 : ℚ) / 2).den = 2 := by
  constructor
  · norm_num [processWebhook, balanceOf, findTxnBy, creditFirst, setStatusFirst,
      findWalletById, dbC6cex, pC6cex]
  · norm_num

/-- C7 counterexample: a self-transfer whose amount exceeds the balance
is rejected as insufficient balance, not as a self-transfer, because the
balance check runs first. -/
theorem self_transfer_insufficient_cex :
    findWalletByUser dbC7cex.wallets "u1" = some ⟨"w1", "u1", "111", 5⟩ ∧
    findWalletByNumber dbC7cex.wallets "111" = some ⟨"w1", "u1", "111", 5⟩ ∧
    transfer dbC7cex "u1" ⟨"111", 10⟩ "TRF_X" "t9"
      = Except.error TransferError.insufficientBalance ∧
    TransferError.insufficientBalance ≠ TransferError.selfTransfer := by
  refine ⟨rfl, rfl, ?_, by decide⟩
  norm_num [transfer, findWalletByUser, findWalletByNumber, dbC7cex]

/-- C7 witness: a covered self-transfer is rejected with the
self-transfer error. -/
theorem self_transfer_rejected_witness :
    transfer dbC7wit "u1" reqC7wit "TRF_W" "t9"
      = Except.error TransferError.selfTransfer :=
  (self_transfer_rejected dbC7wit "u1" reqC7wit "TRF_W" "t9" wC7wit wC7wit
    rfl rfl rfl).2.1 (by norm_num [wC7wit, reqC7wit])

/-- C8 witness: with five concrete active keys the sixth creation is
rejected, and after revoking k1 a creation succeeds. -/
theorem key_cap_enforced_witness :
    create_api_key keysC8wit "u1" reqC8wit 0 "k9" "h9" "p9"
      = Except.error KeyError.conflictCap ∧
    ∃ keys', revoke_api_key keysC8wit "u1" kC8wit.id = Except.ok keys' ∧
      ∃ keys'', create_api_key keys' "u1" reqC8wit 0 "k9" "h9" "p9"
        = Except.ok keys'' :=
  key_cap_enforced keysC8wit "u1" reqC8wit 0 "k9" "h9" "p9" kC8wit
    (by decide) (by decide) (by decide) rfl (by decide) (by decide) (by decide)

/-- C9 witness: a key granted transfer passes the transfer gate. -/
theorem permission_gate_exact_witness :
    require_permission_check "transfer" uC9wit (some ["read", "transfer"])
      = PermResult.ok uC9wit :=
  (permission_gate_exact "transfer" uC9wit ["read", "transfer"]).2.1.mpr (by decide)

/-- C10 counterexample: two credentials failing for different reasons —
an expired key correctly verified, and a key matching no record —
surface distinguishable error details, refuting indistinguishability. -/
theorem auth_failure_distinguishable_cex :
    get_current_user vKeyC10 vTokC10 pfxOfC10 usersC10 keysC10 100
        (some "SECRET1") none
      = Except.error ⟨401, "API key has expired"⟩ ∧
    get_current_user vKeyC10 vTokC10 pfxOfC10 usersC10 keysC10 100
        (some "OTHER") none
      = Except.error ⟨401, "Invalid API key"⟩ ∧
    ("API key has expired" : String) ≠ "Invalid API key" :=
  ⟨rfl, rfl, by decide⟩

/-- C10 witness: the missing-credential failure carries status 401. -/
theorem auth_failure_always_401_witness :
    HTTPError.statusCode
      ⟨401, "Authentication required. Provide either Bearer token or x-api-key header."⟩
      = 401 :=
  auth_failure_always_401 vKeyC10 vTokC10 pfxOfC10 [] [] 0 none none
    ⟨401, "Authentication required. Provide either Bearer token or x-api-key header."⟩ rfl

end WalletService
